import Mathlib

/-!
A verification development for an adaptive language-learning backend:
an FSRS v4 spaced-repetition scheduler (`src/api/fsrs.py`), an IRT-based
computerized adaptive placement engine (`src/api/placement_cat.py`), and a
contextual credit distributor (`src/api/contextual_learning.py`).
Floating-point arithmetic of the source is embedded as exact real
arithmetic; the credit distributor's arithmetic is rational and is embedded
over `ℚ` so that it stays executable.
-/

namespace FsrsV4

/-- Rating scale of the scheduler (Python `Rating(IntEnum)`). -/
inductive Rating where
  | again
  | hard
  | good
  | easy
deriving DecidableEq, Repr

/-- Integer value of a rating, as in the Python `IntEnum`. -/
def Rating.val : Rating → ℕ
  | .again => 1
  | .hard => 2
  | .good => 3
  | .easy => 4

/-- Card learning state (Python `State(IntEnum)`). -/
inductive State where
  | new
  | learning
  | review
  | relearning
deriving DecidableEq, Repr

/-- FSRS card state (Python dataclass `Card`).  Timestamps (`due`,
`last_review`) are modelled as real numbers counting days. -/
structure Card where
  due : ℝ
  stability : ℝ
  difficulty : ℝ
  elapsed_days : ℤ
  scheduled_days : ℤ
  reps : ℕ
  lapses : ℕ
  state : State
  last_review : Option ℝ

/-- FSRS v4 default parameter vector `self.w` (indices 0..18). -/
def w : ℕ → ℝ
  | 0 => 0.4072
  | 1 => 1.1829
  | 2 => 3.1262
  | 3 => 15.4722
  | 4 => 7.2102
  | 5 => 0.5316
  | 6 => 1.0651
  | 7 => 0.0234
  | 8 => 1.616
  | 9 => 0.1544
  | 10 => 1.0824
  | 11 => 1.9813
  | 12 => 0.0953
  | 13 => 0.2975
  | 14 => 2.2042
  | 15 => 0.2407
  | 16 => 2.9466
  | 17 => 0.5034
  | 18 => 1.6567
  | _ => 0

/-- Learning steps in minutes (`self.learning_steps = [1, 10]`). -/
def learning_steps : List ℤ := [1, 10]

/-- Relearning steps in minutes (`self.relearning_steps = [10]`). -/
def relearning_steps : List ℤ := [10]

/-- Graduating interval for GOOD, in days. -/
def graduating_interval_good : ℤ := 1

/-- Graduating interval for EASY, in days. -/
def graduating_interval_easy : ℤ := 4

/-- Maximum interval in days (100 years). -/
def maximum_interval : ℤ := 36500

/-- Interval factor applied on HARD. -/
def hard_interval_factor : ℝ := 1.2

/-- Conversion used for `timedelta(minutes=m)` when time is counted in days. -/
noncomputable def minutesToDays (m : ℝ) : ℝ := m / (24 * 60)

/-- Python `int(x)` truncates toward zero. -/
noncomputable def pyInt (x : ℝ) : ℤ := if 0 ≤ x then ⌊x⌋ else ⌈x⌉

/-- `FSRS.init_card`: a fresh card. -/
def init_card (now : ℝ) : Card :=
  { due := now
    stability := 0
    difficulty := 0
    elapsed_days := 0
    scheduled_days := 0
    reps := 0
    lapses := 0
    state := .new
    last_review := none }

/-- `FSRS._init_stability`: `max(0.1, w[rating - 1])`. -/
noncomputable def init_stability (rating : Rating) : ℝ :=
  max 0.1 (w (rating.val - 1))

/-- `FSRS._init_difficulty`: `max(1.0, w[4] - w[7])` for EASY, otherwise
`max(1.0, w[4] - w[rating + 3])`. -/
noncomputable def init_difficulty (rating : Rating) : ℝ :=
  if rating = .easy then max 1 (w 4 - w 7)
  else max 1 (w 4 - w (rating.val + 3))

/-- `FSRS._retrievability`: `(1 + elapsed_days / (9 * stability)) ** -1`,
and `0.0` when stability is nonpositive. -/
noncomputable def retrievability (card : Card) (elapsed_days : ℤ) : ℝ :=
  if card.stability ≤ 0 then 0
  else (1 + (elapsed_days : ℝ) / (9 * card.stability)) ^ (-1 : ℝ)

/-- `FSRS._next_stability`: the FSRS stability update, clamped to
`[0.1, maximum_interval]`. -/
noncomputable def next_stability (card : Card) (elapsed_days : ℤ)
    (rating : Rating) : ℝ :=
  let stability :=
    if rating = .again then
      w 8 * card.difficulty ^ (-(w 9)) *
        ((card.stability + 1) ^ (w 10) - 1) *
        Real.exp ((1 - retrievability card elapsed_days) * w 11)
    else
      card.stability * (
        Real.exp (w 12) *
        (11 - card.difficulty) *
        card.stability ^ (-(w 13)) *
        (Real.exp (((rating.val : ℝ) - 3) * w 14) - 1) *
        retrievability card elapsed_days + 1)
  max 0.1 (min stability (maximum_interval : ℝ))

/-- `FSRS._next_difficulty`: difficulty update with mean reversion,
clamped to `[1, 10]`. -/
noncomputable def next_difficulty (card : Card) (rating : Rating) : ℝ :=
  max 1 (min 10
    (card.difficulty - w 15 * ((rating.val : ℝ) - 3) +
      w 16 * (init_difficulty .good - card.difficulty)))

/-- Elapsed days computed in `_repeat_learning_card` and
`_repeat_review_card`: `max(0, (now - card.last_review).days)` when a last
review exists, else 0.  `timedelta.days` floors. -/
noncomputable def elapsedOf (card : Card) (now : ℝ) : ℤ :=
  match card.last_review with
  | none => 0
  | some lr => max 0 ⌊now - lr⌋

/-- `FSRS._repeat_new_card`, restricted to the entry of the returned dict
for the given rating. -/
noncomputable def repeat_new_card (_card : Card) (now : ℝ) (rating : Rating) :
    Card :=
  let base : Card :=
    { due := now
      stability := init_stability rating
      difficulty := init_difficulty .good
      elapsed_days := 0
      scheduled_days := 0
      reps := 1
      lapses := if rating = .again then 1 else 0
      state := if rating = .again then .learning else .review
      last_review := some now }
  match rating with
  | .again =>
      { base with due := now + minutesToDays ((learning_steps.getD 0 0 : ℤ) : ℝ)
                  scheduled_days := 0 }
  | .hard =>
      { base with due := now + minutesToDays ((learning_steps.getLastD 0 : ℤ) : ℝ)
                  scheduled_days := 0 }
  | .good =>
      { base with due := now + (graduating_interval_good : ℝ)
                  scheduled_days := graduating_interval_good }
  | .easy =>
      { base with due := now + (graduating_interval_easy : ℝ)
                  scheduled_days := graduating_interval_easy
                  difficulty := init_difficulty .easy }

/-- `FSRS._repeat_learning_card` (LEARNING and RELEARNING states),
restricted to the entry of the returned dict for the given rating. -/
noncomputable def repeat_learning_card (card : Card) (now : ℝ)
    (rating : Rating) : Card :=
  let elapsed := elapsedOf card now
  let base : Card :=
    { card with elapsed_days := elapsed
                reps := card.reps + 1
                last_review := some now }
  match rating with
  | .again =>
      { base with due := now + minutesToDays ((learning_steps.getD 0 0 : ℤ) : ℝ)
                  scheduled_days := 0
                  lapses := card.lapses + 1 }
  | .hard | .good =>
      if card.state = .learning then
        let interval : ℤ :=
          if rating = .good then graduating_interval_good else 1
        { base with state := .review
                    due := now + (interval : ℝ)
                    scheduled_days := interval }
      else
        let s := next_stability card elapsed rating
        let d := next_difficulty card rating
        let interval : ℤ :=
          if rating = .hard then max 1 (pyInt (s * hard_interval_factor))
          else max 1 (pyInt s)
        { base with state := .review
                    stability := s
                    difficulty := d
                    due := now + (interval : ℝ)
                    scheduled_days := interval }
  | .easy =>
      if card.state = .learning then
        { base with state := .review
                    difficulty := init_difficulty .easy
                    due := now + (graduating_interval_easy : ℝ)
                    scheduled_days := graduating_interval_easy }
      else
        let s := next_stability card elapsed .easy
        let d := next_difficulty card .easy
        let interval : ℤ := max graduating_interval_easy (pyInt s)
        { base with state := .review
                    stability := s
                    difficulty := d
                    due := now + (interval : ℝ)
                    scheduled_days := interval }

/-- `FSRS._repeat_review_card`, restricted to the entry of the returned
dict for the given rating. -/
noncomputable def repeat_review_card (card : Card) (now : ℝ)
    (rating : Rating) : Card :=
  let elapsed := elapsedOf card now
  let base : Card :=
    { card with elapsed_days := elapsed
                reps := card.reps + 1
                last_review := some now }
  if rating = .again then
    { base with state := .relearning
                due := now + minutesToDays ((relearning_steps.getD 0 0 : ℤ) : ℝ)
                scheduled_days := 0
                lapses := card.lapses + 1
                stability := next_stability card elapsed .again
                difficulty := next_difficulty card .again }
  else
    let s := next_stability card elapsed rating
    let d := next_difficulty card rating
    let interval0 : ℤ :=
      if rating = .hard then max 1 (pyInt (s * hard_interval_factor))
      else max 1 (pyInt s)
    let interval := min interval0 maximum_interval
    { base with stability := s
                difficulty := d
                due := now + (interval : ℝ)
                scheduled_days := interval }

/-- `schedule_card` / `FSRS.repeat`: dispatch on the card state and return
the scheduled card for the given rating. -/
noncomputable def schedule_card (card : Card) (rating : Rating) (now : ℝ) :
    Card :=
  match card.state with
  | .new => repeat_new_card card now rating
  | .learning => repeat_learning_card card now rating
  | .relearning => repeat_learning_card card now rating
  | .review => repeat_review_card card now rating

end FsrsV4

namespace PlacementCAT

/-- CEFR level table `self.cefr_levels`, in Python dict insertion order. -/
noncomputable def cefr_levels : List (String × ℝ) :=
  [("A1", -2), ("A2", -1), ("B1", 0), ("B2", 1), ("C1", 2), ("C2", 3)]

/-- `PlacementCAT._probability_correct`: 2PL response probability. -/
noncomputable def probability_correct (theta difficulty discrimination : ℝ) : ℝ :=
  1 / (1 + Real.exp (-(discrimination * (theta - difficulty))))

/-- `PlacementCAT._item_information`: Fisher information of an item. -/
noncomputable def item_information (theta item_theta discrimination : ℝ) : ℝ :=
  discrimination ^ 2 * probability_correct theta item_theta discrimination *
    (1 - probability_correct theta item_theta discrimination)

/-- A candidate item: an opaque payload plus the optional `'theta'` entry of
the Python dict. -/
structure PlacementItem where
  payload : ℕ
  theta : Option ℝ

/-- `item.get('theta', 0.0)`. -/
noncomputable def item_theta_of (item : PlacementItem) : ℝ :=
  item.theta.getD 0

/-- Loop of `PlacementCAT.select_next_item`: running best item and running
maximal information, updated when the current item's information strictly
exceeds the running maximum. -/
noncomputable def select_go (theta : ℝ) :
    List PlacementItem → Option PlacementItem → ℝ → Option PlacementItem
  | [], best, _ => best
  | item :: rest, best, max_information =>
      let information := item_information theta (item_theta_of item) 1.5
      if max_information < information then
        select_go theta rest (some item) information
      else
        select_go theta rest best max_information

/-- `PlacementCAT.select_next_item`: `None` on an empty pool, otherwise the
loop starting from no best item and maximal information 0. -/
noncomputable def select_next_item (theta : ℝ)
    (available_items : List PlacementItem) : Option PlacementItem :=
  if available_items.isEmpty then none
  else select_go theta available_items none 0

/-- `PlacementCAT.update_ability`: returns the pair (new theta, new SE). -/
noncomputable def update_ability (current_theta current_se item_theta : ℝ)
    (is_correct : Bool) (confidence : ℝ) : ℝ × ℝ :=
  let discrimination : ℝ := 1.5
  let prob_correct := probability_correct current_theta item_theta discrimination
  let base_learning_rate : ℝ := 0.5
  let new_theta :=
    if is_correct then
      current_theta + base_learning_rate * (1 - prob_correct) * confidence
    else
      current_theta - base_learning_rate * prob_correct * confidence * 2
  let new_se := current_se * 0.85
  (max (-3) (min 4 new_theta), max 0.1 new_se)

/-- Loop body of `PlacementCAT.get_final_cefr`: the accumulator holds the
closest level name and, once set, the minimal distance (`None` models the
initial `float('inf')`). -/
noncomputable def closest_step (theta : ℝ) (acc : String × Option ℝ)
    (level : String × ℝ) : String × Option ℝ :=
  let distance := |theta - level.2|
  match acc.2 with
  | none => (level.1, some distance)
  | some d => if distance < d then (level.1, some distance) else acc

/-- `PlacementCAT.get_final_cefr`: fold over the level table starting from
`closest_level = "B1"`, `min_distance = inf`. -/
noncomputable def get_final_cefr (theta : ℝ) : String :=
  (cefr_levels.foldl (closest_step theta) ("B1", none)).1

end PlacementCAT

namespace ContextualLearning

/-- Credit classes of `CreditType(Enum)`. -/
inductive CreditType where
  | primary
  | supporting
  | structural
  | ignored
deriving DecidableEq, Repr

/-- Python dataclass `WordCredit`; the multiplier arithmetic of the source
is rational, so it is embedded over `ℚ`. -/
structure WordCredit where
  word : String
  lexeme_id : String
  credit_type : CreditType
  credit_multiplier : ℚ
  adjusted_rating : ℤ
deriving DecidableEq, Repr

/-- Lowercasing of `str.lower()` applied characterwise. -/
def py_lower (s : String) : String :=
  String.mk (s.data.map Char.toLower)

/-- `s.replace(c, '')` for a one-character pattern: every occurrence of the
character is removed. -/
def remove_char (c : Char) (s : String) : String :=
  String.mk (s.data.filter (fun d => d ≠ c))

/-- Helper for `str.split()`: accumulate the current token (reversed) while
scanning the character list. -/
def split_ws_go : List Char → List Char → List String
  | [], acc => if acc = [] then [] else [String.mk acc.reverse]
  | c :: cs, acc =>
      if c.isWhitespace then
        if acc = [] then split_ws_go cs []
        else String.mk acc.reverse :: split_ws_go cs []
      else split_ws_go cs (c :: acc)

/-- Python `str.split()` with no argument: split on whitespace runs,
dropping empty tokens. -/
def split_ws (s : String) : List String :=
  split_ws_go s.data []

/-- Basic structural words filtered out by `analyze_sentence_words`. -/
def basic_words : List String :=
  ["я", "ты", "он", "она", "мы", "вы", "они", "в", "на", "и", "а", "но"]

/-- `analyze_sentence_words`: lowercase, strip `.` and `,`, split on
whitespace, and drop the basic words. -/
def analyze_sentence_words (sentence : String) (_target_word : String)
    (_user_cefr : String) : List String :=
  let words := split_ws (remove_char ',' (remove_char '.' (py_lower sentence)))
  words.filter (fun word => !(basic_words.contains word))

/-- Grammar particles receiving structural credit. -/
def structural_words : List String :=
  ["не", "то", "это", "что", "как", "где", "когда", "почему"]

/-- `classify_word_importance`.  Python's `word_frequency and
word_frequency <= 100` is falsy for `None` and for frequency 0. -/
def classify_word_importance (word target_word user_cefr : String)
    (word_frequency : Option ℕ) : CreditType :=
  if word = target_word then .primary
  else if (match word_frequency with
           | some f => decide (f ≠ 0) && decide (f ≤ 100)
           | none => false) &&
          (["B2", "C1", "C2"] : List String).contains user_cefr then .structural
  else if structural_words.contains word then .structural
  else .supporting

/-- Base multipliers per credit class (the `base_multipliers` dict). -/
def base_multipliers : CreditType → ℚ
  | .primary => 1
  | .supporting => 0.6
  | .structural => 0.2
  | .ignored => 0

/-- `calculate_credit_multiplier`: base multiplier per credit class,
adjusted for AGAIN and EASY ratings, capped at 1. -/
def calculate_credit_multiplier (credit_type : CreditType)
    (user_rating : ℤ) (_user_cefr : String) : ℚ :=
  let base : ℚ := base_multipliers credit_type
  let adjusted : ℚ :=
    if user_rating = 1 then
      if credit_type = .supporting then base * 0.3
      else if credit_type = .structural then 0
      else base
    else if user_rating = 4 then
      if credit_type = .supporting then base * 1.2
      else base
    else base
  min 1 adjusted

/-- `adjust_rating_for_word`: `none` models Python's `None`. -/
def adjust_rating_for_word (base_rating : ℤ) (credit_multiplier : ℚ)
    (credit_type : CreditType) : Option ℤ :=
  if credit_type = .primary then some base_rating
  else if credit_multiplier = 0 then none
  else if base_rating = 1 then some 1
  else if base_rating = 2 then some 2
  else if base_rating = 3 then some 3
  else some 3

/-- Body of the loop of `distribute_contextual_credit` for one word:
`none` models the `continue` paths. -/
def credit_for (target_word user_cefr : String) (user_rating : ℤ)
    (word_lexeme_map : List (String × String)) (word : String) :
    Option WordCredit :=
  let credit_type := classify_word_importance word target_word user_cefr none
  if credit_type = .ignored then none
  else
    let credit_multiplier :=
      calculate_credit_multiplier credit_type user_rating user_cefr
    if credit_multiplier = 0 then none
    else
      match adjust_rating_for_word user_rating credit_multiplier credit_type with
      | none => none
      | some adjusted_rating =>
          some { word := word
                 lexeme_id := (word_lexeme_map.lookup word).getD
                   ("unknown_" ++ word)
                 credit_type := credit_type
                 credit_multiplier := credit_multiplier
                 adjusted_rating := adjusted_rating }

/-- `distribute_contextual_credit`: one credit entry per analyzed word that
survives the skips. -/
def distribute_contextual_credit (sentence target_word : String)
    (user_rating : ℤ) (user_cefr : String)
    (word_lexeme_map : List (String × String)) : List WordCredit :=
  (analyze_sentence_words sentence target_word user_cefr).filterMap
    (credit_for target_word user_cefr user_rating word_lexeme_map)

end ContextualLearning

/-! ## Theorems -/

namespace ContextualLearning

lemma classify_self (t c : String) (f : Option ℕ) :
    classify_word_importance t t c f = .primary := by
  simp [classify_word_importance]

lemma classify_ne_primary {word t : String} (h : word ≠ t) (c : String)
    (f : Option ℕ) : classify_word_importance word t c f ≠ .primary := by
  simp only [classify_word_importance, if_neg h]
  split_ifs <;> simp

lemma calc_mult_primary (r : ℤ) (c : String) :
    calculate_credit_multiplier .primary r c = 1 := by
  simp [calculate_credit_multiplier, base_multipliers]

lemma calc_mult_supporting_easy (c : String) :
    calculate_credit_multiplier .supporting 4 c = 0.72 := by
  simp [calculate_credit_multiplier, base_multipliers]
  norm_num

lemma adjust_primary (r : ℤ) (m : ℚ) :
    adjust_rating_for_word r m .primary = some r := by
  simp [adjust_rating_for_word]

lemma adjust_easy_supporting :
    adjust_rating_for_word 4 (0.72 : ℚ) .supporting = some 3 := by
  rw [adjust_rating_for_word]
  rw [if_neg (by decide), if_neg (by norm_num), if_neg (by decide),
    if_neg (by decide), if_neg (by decide)]

lemma credit_for_target (t c : String) (r : ℤ) (m : List (String × String)) :
    credit_for t c r m t =
      some ⟨t, (m.lookup t).getD ("unknown_" ++ t), .primary, 1, r⟩ := by
  simp [credit_for, classify_self, calc_mult_primary, adjust_primary]

lemma credit_for_shape {t c : String} {r : ℤ} {m : List (String × String)}
    {word : String} {wc : WordCredit}
    (h : credit_for t c r m word = some wc) :
    wc.word = word ∧
    wc.credit_type = classify_word_importance word t c none ∧
    wc.credit_multiplier =
      calculate_credit_multiplier (classify_word_importance word t c none) r c ∧
    adjust_rating_for_word r wc.credit_multiplier wc.credit_type =
      some wc.adjusted_rating := by
  simp only [credit_for] at h
  split_ifs at h with h1 h2
  rcases hadj : adjust_rating_for_word r
      (calculate_credit_multiplier (classify_word_importance word t c none) r c)
      (classify_word_importance word t c none) with _ | ar
  · rw [hadj] at h
    simp at h
  · rw [hadj] at h
    simp only [Option.some.injEq] at h
    subst h
    simp [hadj]

lemma credit_for_ne_primary {word t : String} (hw : word ≠ t) {c : String}
    {r : ℤ} {m : List (String × String)} {wc : WordCredit}
    (h : credit_for t c r m word = some wc) :
    ¬ wc.credit_type = CreditType.primary := by
  have hs := (credit_for_shape h).2.1
  rw [hs]
  exact classify_ne_primary hw c none

lemma primary_filter_eq (t c : String) (r : ℤ) (m : List (String × String))
    (ws : List String) :
    (ws.filterMap (credit_for t c r m)).filter
        (fun wc => decide (wc.credit_type = CreditType.primary)) =
      (ws.filter (fun word => word == t)).map
        (fun word =>
          ⟨word, (m.lookup word).getD ("unknown_" ++ word), .primary, 1, r⟩) := by
  induction ws with
  | nil => simp
  | cons word ws ih =>
      by_cases hw : word = t
      · subst hw
        simp [List.filterMap_cons, credit_for_target, List.filter_cons, ih]
      · rcases hcf : credit_for t c r m word with _ | wc
        · simp [List.filterMap_cons, hcf, List.filter_cons, hw, ih]
        · have hne := credit_for_ne_primary hw hcf
          simp [List.filterMap_cons, hcf, List.filter_cons, hw, ih, hne]

/-- Claim C7 (amended): whenever the target word occurs exactly once in the
analyzed word list, the credit distribution contains exactly one entry of
credit type PRIMARY, and that entry's word is the target word. -/
theorem primary_credit_unique (sentence target user_cefr : String)
    (rating : ℤ) (wmap : List (String × String))
    (h : (analyze_sentence_words sentence target user_cefr).count target = 1) :
    ((distribute_contextual_credit sentence target rating user_cefr wmap).filter
        (fun wc => decide (wc.credit_type = CreditType.primary))).length = 1 ∧
    ∀ wc ∈ (distribute_contextual_credit sentence target rating user_cefr
        wmap).filter (fun wc => decide (wc.credit_type = CreditType.primary)),
      wc.word = target := by
  rw [distribute_contextual_credit, primary_filter_eq]
  constructor
  · rw [List.length_map]
    rw [List.count] at h
    rw [← List.countP_eq_length_filter]
    exact h
  · intro wc hwc
    rcases List.mem_map.1 hwc with ⟨word, hword, rfl⟩
    have : (word == target) = true := (List.mem_filter.1 hword).2
    simpa using this

/-- Claim C7 counterexample: in the sentence `"aa aa"` with target `"aa"`,
the target occurs twice, and the distribution contains two PRIMARY
entries. -/
theorem primary_credit_unique_cex :
    ¬ (((distribute_contextual_credit "aa aa" "aa" 3 "B1" []).filter
          (fun wc => decide (wc.credit_type = CreditType.primary))).length = 1 ∧
       ∀ wc ∈ (distribute_contextual_credit "aa aa" "aa" 3 "B1" []).filter
          (fun wc => decide (wc.credit_type = CreditType.primary)),
         wc.word = "aa") := by
  decide

/-- Witness for claim C7 at a concrete input. -/
theorem primary_credit_unique_witness :
    (analyze_sentence_words "aa bb" "aa" "B1").count "aa" = 1 ∧
    (((distribute_contextual_credit "aa bb" "aa" 3 "B1" []).filter
        (fun wc => decide (wc.credit_type = CreditType.primary))).length = 1 ∧
     ∀ wc ∈ (distribute_contextual_credit "aa bb" "aa" 3 "B1" []).filter
        (fun wc => decide (wc.credit_type = CreditType.primary)),
       wc.word = "aa") :=
  ⟨by decide, primary_credit_unique "aa bb" "aa" "B1" 3 [] (by decide)⟩

/-- Claim C8: on a sentence review rated EASY (4), every SUPPORTING credit
has multiplier `min 1 (0.6 * 1.2) = 0.72` and adjusted rating GOOD (3),
while the PRIMARY credit keeps rating 4 and multiplier 1. -/
theorem easy_supporting_credits (sentence target user_cefr : String)
    (wmap : List (String × String)) (wc : WordCredit)
    (hwc : wc ∈ distribute_contextual_credit sentence target 4 user_cefr wmap) :
    (wc.credit_type = .supporting →
      wc.credit_multiplier = 0.72 ∧ wc.adjusted_rating = 3) ∧
    (wc.credit_type = .primary →
      wc.credit_multiplier = 1 ∧ wc.adjusted_rating = 4) := by
  rcases List.mem_filterMap.1 hwc with ⟨word, _, hcf⟩
  obtain ⟨-, hct, hcm, hadj⟩ := credit_for_shape hcf
  constructor
  · intro hsup
    have hm : wc.credit_multiplier = 0.72 := by
      rw [hcm, ← hct, hsup, calc_mult_supporting_easy]
    refine ⟨hm, ?_⟩
    rw [hm, hsup, adjust_easy_supporting] at hadj
    simpa using hadj.symm
  · intro hpri
    have hm : wc.credit_multiplier = 1 := by
      rw [hcm, ← hct, hpri, calc_mult_primary]
    refine ⟨hm, ?_⟩
    rw [hpri, adjust_primary] at hadj
    simpa using hadj.symm

/-- Witness for claim C8 at a concrete input. -/
theorem easy_supporting_credits_witness :
    ((⟨"bb", "unknown_bb", .supporting, 0.72, 3⟩ : WordCredit).credit_type
        = .supporting →
      (⟨"bb", "unknown_bb", .supporting, 0.72, 3⟩ : WordCredit).credit_multiplier
        = 0.72 ∧
      (⟨"bb", "unknown_bb", .supporting, 0.72, 3⟩ : WordCredit).adjusted_rating
        = 3) ∧
    ((⟨"bb", "unknown_bb", .supporting, 0.72, 3⟩ : WordCredit).credit_type
        = .primary →
      (⟨"bb", "unknown_bb", .supporting, 0.72, 3⟩ : WordCredit).credit_multiplier
        = 1 ∧
      (⟨"bb", "unknown_bb", .supporting, 0.72, 3⟩ : WordCredit).adjusted_rating
        = 4) := by
  refine easy_supporting_credits "aa bb" "aa" "B1" [] _ ?_
  have hA : analyze_sentence_words "aa bb" "aa" "B1" = ["aa", "bb"] := by decide
  have h0 : classify_word_importance "bb" "aa" "B1" none = .supporting := by
    decide
  have h1 : credit_for "aa" "B1" 4 [] "bb" =
      some ⟨"bb", "unknown_bb", .supporting, 0.72, 3⟩ := by
    simp only [credit_for, h0, calc_mult_supporting_easy, adjust_easy_supporting]
    norm_num
    exact ⟨by decide, by decide⟩
  rw [distribute_contextual_credit, hA]
  exact List.mem_filterMap.2 ⟨"bb", by simp, h1⟩

end ContextualLearning

namespace FsrsV4

/-- Claim C10: the scheduler increments `reps` and counts a lapse exactly on
AGAIN; a NEW card starts its counts from zero. -/
theorem reps_lapses_bookkeeping (card : Card) (rating : Rating) (now : ℝ) :
    (card.state ≠ .new →
      (schedule_card card rating now).reps = card.reps + 1 ∧
      (schedule_card card rating now).lapses =
        card.lapses + (if rating = .again then 1 else 0)) ∧
    (card.state = .new →
      (schedule_card card rating now).reps = 1 ∧
      (schedule_card card rating now).lapses =
        (if rating = .again then 1 else 0)) := by
  rcases card with ⟨due, s, d, e, sd, reps, lapses, st, lr⟩
  cases st <;> cases rating <;>
    simp [schedule_card, repeat_new_card, repeat_learning_card,
      repeat_review_card]

/-- Witness for claim C10 at a concrete input. -/
theorem reps_lapses_bookkeeping_witness :
    ((init_card 0).state ≠ .new →
      (schedule_card (init_card 0) .again 0).reps = (init_card 0).reps + 1 ∧
      (schedule_card (init_card 0) .again 0).lapses =
        (init_card 0).lapses + (if Rating.again = .again then 1 else 0)) ∧
    ((init_card 0).state = .new →
      (schedule_card (init_card 0) .again 0).reps = 1 ∧
      (schedule_card (init_card 0) .again 0).lapses =
        (if Rating.again = .again then 1 else 0)) :=
  reps_lapses_bookkeeping (init_card 0) .again 0

lemma max_one_ne_zero (x : ℤ) : max 1 x ≠ 0 := by
  have := le_max_left (1 : ℤ) x
  omega

lemma max_four_ne_zero (x : ℤ) : max 4 x ≠ 0 := by
  have := le_max_left (4 : ℤ) x
  omega

lemma min_max_ne_zero (x : ℤ) : min (max 1 x) 36500 ≠ 0 := by
  have h1 : (1 : ℤ) ≤ max 1 x := le_max_left _ _
  have h2 : (1 : ℤ) ≤ min (max 1 x) 36500 := le_min h1 (by norm_num)
  omega

/-- Claim C5 (amended): after a transition, `scheduled_days = 0` holds iff
the resulting state is NEW, LEARNING or RELEARNING — except for a NEW card
rated HARD, which ends in state REVIEW with `scheduled_days = 0`. -/
theorem scheduled_days_zero_iff (card : Card) (rating : Rating) (now : ℝ) :
    (¬ (card.state = .new ∧ rating = .hard) →
      ((schedule_card card rating now).scheduled_days = 0 ↔
        (schedule_card card rating now).state ∈
          [State.new, State.learning, State.relearning])) ∧
    (card.state = .new ∧ rating = .hard →
      (schedule_card card rating now).state = .review ∧
      (schedule_card card rating now).scheduled_days = 0) := by
  rcases card with ⟨due, s, d, e, sd, reps, lapses, st, lr⟩
  cases st <;> cases rating <;>
    simp [schedule_card, repeat_new_card, repeat_learning_card,
      repeat_review_card, graduating_interval_good, graduating_interval_easy,
      maximum_interval, max_one_ne_zero, max_four_ne_zero, min_max_ne_zero]

/-- Claim C5 counterexample: a NEW card rated HARD ends in state REVIEW with
`scheduled_days = 0`, so the claimed equivalence fails there. -/
theorem scheduled_days_zero_iff_cex :
    ¬ ((schedule_card (init_card 0) .hard 0).scheduled_days = 0 ↔
        (schedule_card (init_card 0) .hard 0).state ∈
          [State.new, State.learning, State.relearning]) := by
  simp [schedule_card, init_card, repeat_new_card]

/-- Witness for claim C5 at a concrete input. -/
theorem scheduled_days_zero_iff_witness :
    (¬ ((init_card 0).state = .new ∧ Rating.good = .hard) →
      ((schedule_card (init_card 0) .good 0).scheduled_days = 0 ↔
        (schedule_card (init_card 0) .good 0).state ∈
          [State.new, State.learning, State.relearning])) ∧
    ((init_card 0).state = .new ∧ Rating.good = .hard →
      (schedule_card (init_card 0) .good 0).state = .review ∧
      (schedule_card (init_card 0) .good 0).scheduled_days = 0) :=
  scheduled_days_zero_iff (init_card 0) .good 0

/-- Claim C2 counterexample: a NEW card rated HARD gets difficulty
`max(1, w[4] - w[6])` (the GOOD initial difficulty), not
`clamp(w[4] - w[2+3], 1, 10)` as claimed. -/
theorem new_card_difficulty_cex :
    ¬ ((schedule_card (init_card 0) .hard 0).difficulty =
        max 1 (min 10 (w 4 - w (Rating.hard.val + 3)))) := by
  have e1 : (schedule_card (init_card 0) .hard 0).difficulty =
      max 1 (w 4 - w 6) := by
    simp [schedule_card, init_card, repeat_new_card, init_difficulty,
      Rating.val]
  have hL : max (1 : ℝ) (w 4 - w 6) = 6.1451 := by
    rw [max_eq_right (by norm_num [w])]
    norm_num [w]
  have hR : max (1 : ℝ) (min 10 (w 4 - w (Rating.hard.val + 3))) = 6.6786 := by
    rw [show Rating.hard.val + 3 = 5 from rfl]
    rw [min_eq_right (by norm_num [w]), max_eq_right (by norm_num [w])]
    norm_num [w]
  rw [e1, hL, hR]
  norm_num

/-- Claim C2 (amended): a NEW card's resulting difficulty is the GOOD
initial difficulty `max(1, w[4] - w[6])` for ratings AGAIN, HARD and GOOD,
and `max(1, w[4] - w[7])` for EASY; it does not otherwise depend on the
rating. -/
theorem new_card_difficulty (card : Card) (rating : Rating) (now : ℝ)
    (h : card.state = .new) :
    (schedule_card card rating now).difficulty =
      if rating = .easy then max 1 (w 4 - w 7) else max 1 (w 4 - w 6) := by
  cases rating <;>
    simp [schedule_card, h, repeat_new_card, init_difficulty, Rating.val]

/-- Witness for claim C2 at a concrete input. -/
theorem new_card_difficulty_witness :
    (schedule_card (init_card 0) .good 0).difficulty =
      if Rating.good = .easy then max 1 (w 4 - w 7) else max 1 (w 4 - w 6) :=
  new_card_difficulty (init_card 0) .good 0 rfl

end FsrsV4

namespace FsrsV4

lemma retrievability_nonneg (card : Card) (t : ℤ) (ht : 0 ≤ t) :
    0 ≤ retrievability card t := by
  rw [retrievability]
  split_ifs with h
  · exact le_refl 0
  · have hs : 0 < card.stability := not_le.1 h
    have hd : 0 ≤ (t : ℝ) / (9 * card.stability) :=
      div_nonneg (by exact_mod_cast ht) (by linarith)
    exact Real.rpow_nonneg (by linarith) _

lemma elapsedOf_nonneg (card : Card) (now : ℝ) : 0 ≤ elapsedOf card now := by
  cases h : card.last_review <;> simp [elapsedOf, h]

lemma next_stability_not_again (card : Card) (t : ℤ) (r : Rating)
    (hr : r ≠ .again) :
    next_stability card t r =
      max 0.1 (min
        (card.stability * (
          Real.exp (w 12) *
          (11 - card.difficulty) *
          card.stability ^ (-(w 13)) *
          (Real.exp (((r.val : ℝ) - 3) * w 14) - 1) *
          retrievability card t + 1))
        (maximum_interval : ℝ)) := by
  simp [next_stability, hr]

lemma next_stability_good (card : Card) (t : ℤ) :
    next_stability card t .good =
      max 0.1 (min card.stability (maximum_interval : ℝ)) := by
  rw [next_stability_not_again card t .good (by decide)]
  have hgood : Real.exp (((Rating.good.val : ℝ) - 3) * w 14) - 1 = 0 := by
    norm_num [Rating.val, Real.exp_zero]
  rw [hgood]
  norm_num

lemma review_stability_proj (card : Card) (now : ℝ)
    (hst : card.state = .review) (r : Rating) (hr : r ≠ .again) :
    (schedule_card card r now).stability =
      next_stability card (elapsedOf card now) r := by
  simp [schedule_card, hst, repeat_review_card, hr]

lemma next_stability_mono (card : Card) (t : ℤ) (ht : 0 ≤ t)
    (h1 : 0.1 ≤ card.stability) (h3 : card.difficulty ≤ 10) :
    next_stability card t .hard ≤ next_stability card t .good ∧
    next_stability card t .good ≤ next_stability card t .easy := by
  have hS : (0 : ℝ) ≤ card.stability := by linarith
  have hR : 0 ≤ retrievability card t := retrievability_nonneg card t ht
  have hE : 0 ≤ Real.exp (w 12) * (11 - card.difficulty) *
      card.stability ^ (-(w 13)) :=
    mul_nonneg (mul_nonneg (Real.exp_pos _).le (by linarith))
      (Real.rpow_nonneg hS _)
  have gh_le : Real.exp (((Rating.hard.val : ℝ) - 3) * w 14) - 1 ≤ 0 := by
    have harg : ((Rating.hard.val : ℝ) - 3) * w 14 ≤ 0 := by
      norm_num [Rating.val, w]
    have := Real.exp_le_one_iff.mpr harg
    linarith
  have ge_nonneg : 0 ≤ Real.exp (((Rating.easy.val : ℝ) - 3) * w 14) - 1 := by
    have harg : (0 : ℝ) ≤ ((Rating.easy.val : ℝ) - 3) * w 14 := by
      norm_num [Rating.val, w]
    have := Real.one_le_exp harg
    linarith
  rw [next_stability_not_again card t .hard (by decide), next_stability_good,
    next_stability_not_again card t .easy (by decide)]
  constructor
  · refine max_le_max le_rfl (min_le_min ?_ le_rfl)
    nlinarith [mul_nonneg (mul_nonneg hS hE) hR]
  · refine max_le_max le_rfl (min_le_min ?_ le_rfl)
    nlinarith [mul_nonneg (mul_nonneg hS hE) hR]

/-- Claim C3: for a REVIEW card with stability at least 0.1 and difficulty
in [1, 10], the scheduler's next stabilities are ordered over the non-AGAIN
ratings: HARD ≤ GOOD ≤ EASY. -/
theorem review_stability_ordered (card : Card) (now : ℝ)
    (hst : card.state = .review) (h1 : 0.1 ≤ card.stability)
    (h2 : 1 ≤ card.difficulty) (h3 : card.difficulty ≤ 10) :
    (schedule_card card .hard now).stability ≤
      (schedule_card card .good now).stability ∧
    (schedule_card card .good now).stability ≤
      (schedule_card card .easy now).stability := by
  rw [review_stability_proj card now hst .hard (by decide),
    review_stability_proj card now hst .good (by decide),
    review_stability_proj card now hst .easy (by decide)]
  exact next_stability_mono card _ (elapsedOf_nonneg card now) h1 h3

/-- Witness for claim C3 at a concrete input. -/
theorem review_stability_ordered_witness :
    (schedule_card ⟨0, 1, 5, 0, 0, 1, 0, .review, none⟩ .hard 0).stability ≤
      (schedule_card ⟨0, 1, 5, 0, 0, 1, 0, .review, none⟩ .good 0).stability ∧
    (schedule_card ⟨0, 1, 5, 0, 0, 1, 0, .review, none⟩ .good 0).stability ≤
      (schedule_card ⟨0, 1, 5, 0, 0, 1, 0, .review, none⟩ .easy 0).stability :=
  review_stability_ordered ⟨0, 1, 5, 0, 0, 1, 0, .review, none⟩ 0 rfl
    (by norm_num) (by norm_num) (by norm_num)

/-- Claim C9: for a REVIEW card with stability in [0.1, maximum_interval],
rating GOOD leaves the stability exactly unchanged: the growth factor
`exp((r - 3) * w[14]) - 1` vanishes at GOOD. -/
theorem good_review_stability (card : Card) (now : ℝ)
    (hst : card.state = .review) (h1 : 0.1 ≤ card.stability)
    (h2 : card.stability ≤ (maximum_interval : ℝ)) :
    (schedule_card card .good now).stability = card.stability := by
  rw [review_stability_proj card now hst .good (by decide),
    next_stability_good, min_eq_left h2, max_eq_right h1]

/-- Witness for claim C9 at a concrete input. -/
theorem good_review_stability_witness :
    (schedule_card ⟨0, 1, 5, 0, 0, 1, 0, .review, none⟩ .good 0).stability = 1 :=
  good_review_stability ⟨0, 1, 5, 0, 0, 1, 0, .review, none⟩ 0 rfl
    (by norm_num) (by norm_num [maximum_interval])

end FsrsV4

namespace PlacementCAT

/-- Claim C1: the placement ability update returns exactly
`clamp(θ + 0.5·surprise·confidence, -3, 4)` on a correct answer and
`clamp(θ - 0.5·surprise·confidence·2, -3, 4)` on an incorrect one, with
`P = 1/(1+exp(-1.5·(θ-θ_item)))` and surprise `1-P` resp. `P`; the new
standard error is `max(0.1, SE·0.85)`; and (for confidence in [0,1] and θ
within the engine's bounds [-3,4]) the ability moves by at most 1. -/
theorem update_ability_spec (theta se item_theta confidence : ℝ)
    (is_correct : Bool) (hc0 : 0 ≤ confidence) (hc1 : confidence ≤ 1)
    (ht0 : -3 ≤ theta) (ht1 : theta ≤ 4) :
    (update_ability theta se item_theta is_correct confidence).1 =
      max (-3) (min 4
        (if is_correct then
          theta + 0.5 *
            (1 - 1 / (1 + Real.exp (-(1.5 * (theta - item_theta))))) *
            confidence
        else
          theta - 0.5 *
            (1 / (1 + Real.exp (-(1.5 * (theta - item_theta))))) *
            confidence * 2)) ∧
    (update_ability theta se item_theta is_correct confidence).2 =
      max 0.1 (se * 0.85) ∧
    |(update_ability theta se item_theta is_correct confidence).1 - theta| ≤ 1 := by
  have he : 0 < Real.exp (-(1.5 * (theta - item_theta))) := Real.exp_pos _
  have hP0 : 0 < 1 / (1 + Real.exp (-(1.5 * (theta - item_theta)))) :=
    div_pos one_pos (by linarith)
  have hP1 : 1 / (1 + Real.exp (-(1.5 * (theta - item_theta)))) ≤ 1 := by
    rw [div_le_one (by linarith)]
    linarith
  refine ⟨rfl, rfl, ?_⟩
  show |max (-3) (min 4
      (if is_correct then
        theta + 0.5 *
          (1 - 1 / (1 + Real.exp (-(1.5 * (theta - item_theta))))) *
          confidence
      else
        theta - 0.5 *
          (1 / (1 + Real.exp (-(1.5 * (theta - item_theta))))) *
          confidence * 2)) - theta| ≤ 1
  set P := 1 / (1 + Real.exp (-(1.5 * (theta - item_theta)))) with hPdef
  set x := (if is_correct then theta + 0.5 * (1 - P) * confidence
    else theta - 0.5 * P * confidence * 2) with hxdef
  have h1P : (0 : ℝ) ≤ 1 - P := by linarith
  have h1c : (0 : ℝ) ≤ 1 - confidence := by linarith
  have hx1 : x ≤ theta + 1 := by
    rw [hxdef]
    cases is_correct
    · simp only [Bool.false_eq_true, if_false]
      nlinarith [mul_nonneg hP0.le hc0]
    · simp only [if_true]
      nlinarith [mul_nonneg h1P h1c, hP0]
  have hx0 : theta - 1 ≤ x := by
    rw [hxdef]
    cases is_correct
    · simp only [Bool.false_eq_true, if_false]
      nlinarith [mul_nonneg h1P hc0,
        mul_nonneg (mul_nonneg hP0.le hc0) h1c]
    · simp only [if_true]
      nlinarith [mul_nonneg h1P hc0]
  rw [abs_le]
  constructor
  · have hmin : theta - 1 ≤ min 4 x := le_min (by linarith) hx0
    have hmax := le_max_right (-3 : ℝ) (min 4 x)
    linarith
  · have hmin : min 4 x ≤ theta + 1 := le_trans (min_le_right _ _) hx1
    have hmax : max (-3) (min 4 x) ≤ theta + 1 := max_le (by linarith) hmin
    linarith

/-- Witness for claim C1 at a concrete input. -/
theorem update_ability_spec_witness :
    (update_ability 0 1 0 true 1).1 =
      max (-3) (min 4
        (if true then
          (0 : ℝ) + 0.5 * (1 - 1 / (1 + Real.exp (-(1.5 * ((0 : ℝ) - 0))))) * 1
        else
          (0 : ℝ) - 0.5 * (1 / (1 + Real.exp (-(1.5 * ((0 : ℝ) - 0))))) * 1 * 2)) ∧
    (update_ability 0 1 0 true 1).2 = max 0.1 ((1 : ℝ) * 0.85) ∧
    |(update_ability 0 1 0 true 1).1 - 0| ≤ 1 :=
  update_ability_spec 0 1 0 1 true (by norm_num) (by norm_num) (by norm_num)
    (by norm_num)
end PlacementCAT

namespace PlacementCAT

lemma item_information_pos (theta x : ℝ) : 0 < item_information theta x 1.5 := by
  rw [item_information, probability_correct]
  have he : 0 < Real.exp (-(1.5 * (theta - x))) := Real.exp_pos _
  have h0 : 0 < 1 / (1 + Real.exp (-(1.5 * (theta - x)))) :=
    div_pos one_pos (by linarith)
  have h1 : 1 / (1 + Real.exp (-(1.5 * (theta - x)))) < 1 := by
    rw [div_lt_one (by linarith)]
    linarith
  nlinarith [mul_pos h0 (by linarith : (0 : ℝ) < 1 - 1 / (1 + Real.exp (-(1.5 * (theta - x)))))]

lemma select_go_spec (theta : ℝ) (l : List PlacementItem)
    (best : Option PlacementItem) (m : ℝ) :
    (select_go theta l best m = best ∧
      ∀ item ∈ l, item_information theta (item_theta_of item) 1.5 ≤ m) ∨
    ∃ k : Fin l.length,
      select_go theta l best m = some (l.get k) ∧
      m < item_information theta (item_theta_of (l.get k)) 1.5 ∧
      (∀ j : Fin l.length,
        item_information theta (item_theta_of (l.get j)) 1.5 ≤
          item_information theta (item_theta_of (l.get k)) 1.5) ∧
      (∀ j : Fin l.length, j.val < k.val →
        item_information theta (item_theta_of (l.get j)) 1.5 <
          item_information theta (item_theta_of (l.get k)) 1.5) := by
  induction l generalizing best m with
  | nil => exact Or.inl ⟨rfl, by simp⟩
  | cons item rest ih =>
      simp only [select_go]
      by_cases hm : m < item_information theta (item_theta_of item) 1.5
      · rw [if_pos hm]
        rcases ih (some item) (item_information theta (item_theta_of item) 1.5)
          with ⟨heq, hall⟩ | ⟨k, heq, hgt, hmax, hfirst⟩
        · refine Or.inr ⟨⟨0, by simp⟩, heq, hm, ?_, ?_⟩
          · rintro ⟨jv, hj⟩
            cases jv with
            | zero => exact le_refl _
            | succ jv =>
                exact hall _ (List.get_mem rest jv (by simpa using hj))
          · rintro ⟨jv, hj⟩ hjk
            exact absurd hjk (Nat.not_lt_zero _)
        · refine Or.inr ⟨k.succ, heq, lt_trans hm hgt, ?_, ?_⟩
          · rintro ⟨jv, hj⟩
            cases jv with
            | zero => exact le_of_lt hgt
            | succ jv => exact hmax ⟨jv, by simpa using hj⟩
          · rintro ⟨jv, hj⟩ hjk
            cases jv with
            | zero => exact hgt
            | succ jv =>
                exact hfirst ⟨jv, by simpa using hj⟩ (by simpa using hjk)
      · rw [if_neg hm]
        rcases ih best m with ⟨heq, hall⟩ | ⟨k, heq, hgt, hmax, hfirst⟩
        · refine Or.inl ⟨heq, ?_⟩
          intro i hi
          rcases List.mem_cons.1 hi with rfl | hi
          · exact not_lt.1 hm
          · exact hall i hi
        · refine Or.inr ⟨k.succ, heq, hgt, ?_, ?_⟩
          · rintro ⟨jv, hj⟩
            cases jv with
            | zero => exact le_of_lt (lt_of_le_of_lt (not_lt.1 hm) hgt)
            | succ jv => exact hmax ⟨jv, by simpa using hj⟩
          · rintro ⟨jv, hj⟩ hjk
            cases jv with
            | zero => exact lt_of_le_of_lt (not_lt.1 hm) hgt
            | succ jv =>
                exact hfirst ⟨jv, by simpa using hj⟩ (by simpa using hjk)

/-- Claim C4: on a non-empty pool, item selection returns the item of
maximal Fisher information `I(θ, θ_item) = 1.5² · P · (1-P)`, and among
several maximizers the one earliest in the pool's order. -/
theorem select_next_item_spec (theta : ℝ)
    (available_items : List PlacementItem) (hne : available_items ≠ []) :
    ∃ k : Fin available_items.length,
      select_next_item theta available_items =
        some (available_items.get k) ∧
      (∀ j : Fin available_items.length,
        item_information theta (item_theta_of (available_items.get j)) 1.5 ≤
          item_information theta (item_theta_of (available_items.get k)) 1.5) ∧
      (∀ j : Fin available_items.length, j.val < k.val →
        item_information theta (item_theta_of (available_items.get j)) 1.5 <
          item_information theta (item_theta_of (available_items.get k)) 1.5) := by
  rw [select_next_item, if_neg (by simpa using hne)]
  rcases select_go_spec theta available_items none 0
    with ⟨heq, hall⟩ | ⟨k, heq, _, hmax, hfirst⟩
  · obtain ⟨a, as, rfl⟩ := List.exists_cons_of_ne_nil hne
    have h1 := hall a (List.mem_cons_self a as)
    have h2 := item_information_pos theta (item_theta_of a)
    linarith
  · exact ⟨k, heq, hmax, hfirst⟩

/-- Witness for claim C4 at a concrete input. -/
theorem select_next_item_spec_witness :
    ∃ k : Fin ([⟨0, some 0⟩] : List PlacementItem).length,
      select_next_item 0 [⟨0, some 0⟩] =
        some (([⟨0, some 0⟩] : List PlacementItem).get k) ∧
      (∀ j : Fin ([⟨0, some 0⟩] : List PlacementItem).length,
        item_information 0
            (item_theta_of (([⟨0, some 0⟩] : List PlacementItem).get j)) 1.5 ≤
          item_information 0
            (item_theta_of (([⟨0, some 0⟩] : List PlacementItem).get k)) 1.5) ∧
      (∀ j : Fin ([⟨0, some 0⟩] : List PlacementItem).length, j.val < k.val →
        item_information 0
            (item_theta_of (([⟨0, some 0⟩] : List PlacementItem).get j)) 1.5 <
          item_information 0
            (item_theta_of (([⟨0, some 0⟩] : List PlacementItem).get k)) 1.5) :=
  select_next_item_spec 0 [⟨0, some 0⟩] (by simp)

end PlacementCAT

namespace PlacementCAT

lemma dist_lt_dist_iff {a b : ℝ} (hab : a < b) (θ : ℝ) :
    |θ - a| < |θ - b| ↔ 2 * θ < a + b := by
  constructor
  · intro h
    have h2 : (θ - a) * (θ - a) < (θ - b) * (θ - b) := by
      have := mul_self_lt_mul_self (abs_nonneg (θ - a)) h
      rwa [abs_mul_abs_self, abs_mul_abs_self] at this
    nlinarith
  · intro h
    have hθb : θ - b < 0 := by linarith
    have hb : |θ - b| = b - θ := by
      rw [abs_of_neg hθb]
      ring
    rw [hb, abs_lt]
    constructor <;> linarith

lemma dist_lt_dist_iff' {a b : ℝ} (hab : a < b) (θ : ℝ) :
    |θ - b| < |θ - a| ↔ a + b < 2 * θ := by
  constructor
  · intro h
    have h2 : (θ - b) * (θ - b) < (θ - a) * (θ - a) := by
      have := mul_self_lt_mul_self (abs_nonneg (θ - b)) h
      rwa [abs_mul_abs_self, abs_mul_abs_self] at this
    nlinarith
  · intro h
    have hθa : 0 < θ - a := by linarith
    have ha : |θ - a| = θ - a := abs_of_pos hθa
    rw [ha, abs_lt]
    constructor <;> linarith

lemma dist_le_dist_iff {a b : ℝ} (hab : a < b) (θ : ℝ) :
    |θ - a| ≤ |θ - b| ↔ 2 * θ ≤ a + b := by
  constructor
  · intro h
    by_contra hc
    push_neg at hc
    have := (dist_lt_dist_iff' hab θ).mpr hc
    exact absurd h (not_le.mpr this)
  · intro h
    by_contra hc
    push_neg at hc
    have := (dist_lt_dist_iff' hab θ).mp hc
    linarith

lemma dist_le_dist_iff' {a b : ℝ} (hab : a < b) (θ : ℝ) :
    |θ - b| ≤ |θ - a| ↔ a + b ≤ 2 * θ := by
  constructor
  · intro h
    by_contra hc
    push_neg at hc
    have := (dist_lt_dist_iff hab θ).mpr hc
    exact absurd h (not_le.mpr this)
  · intro h
    by_contra hc
    push_neg at hc
    have := (dist_lt_dist_iff hab θ).mp hc
    linarith

lemma dist_eq_dist_iff {a b : ℝ} (hab : a < b) (θ : ℝ) :
    |θ - a| = |θ - b| ↔ 2 * θ = a + b := by
  rw [abs_eq_abs]
  constructor
  · rintro (h | h) <;> linarith
  · intro h
    right
    linarith

lemma closest_step_none (θ : ℝ) (b : String) (x : String) (v : ℝ) :
    closest_step θ (b, none) (x, v) = (x, some |θ - v|) := rfl

lemma closest_step_some (θ : ℝ) (b : String) (d : ℝ) (x : String) (v : ℝ) :
    closest_step θ (b, some d) (x, v) =
      if |θ - v| < d then (x, some |θ - v|) else (b, some d) := rfl

lemma gfc_reg1 {θ : ℝ} (h : θ ≤ -1.5) : get_final_cefr θ = "A1" := by
  have c1 : ¬ (|θ - (-1 : ℝ)| < |θ - (-2 : ℝ)|) := by
    rw [dist_lt_dist_iff' (by norm_num : (-2 : ℝ) < -1) θ]
    intro hc
    linarith
  have c2 : ¬ (|θ - (0 : ℝ)| < |θ - (-2 : ℝ)|) := by
    rw [dist_lt_dist_iff' (by norm_num : (-2 : ℝ) < 0) θ]
    intro hc
    linarith
  have c3 : ¬ (|θ - (1 : ℝ)| < |θ - (-2 : ℝ)|) := by
    rw [dist_lt_dist_iff' (by norm_num : (-2 : ℝ) < 1) θ]
    intro hc
    linarith
  have c4 : ¬ (|θ - (2 : ℝ)| < |θ - (-2 : ℝ)|) := by
    rw [dist_lt_dist_iff' (by norm_num : (-2 : ℝ) < 2) θ]
    intro hc
    linarith
  have c5 : ¬ (|θ - (3 : ℝ)| < |θ - (-2 : ℝ)|) := by
    rw [dist_lt_dist_iff' (by norm_num : (-2 : ℝ) < 3) θ]
    intro hc
    linarith
  rw [get_final_cefr, cefr_levels]
  simp only [List.foldl]
  rw [closest_step_none, closest_step_some, if_neg c1, closest_step_some,
    if_neg c2, closest_step_some, if_neg c3, closest_step_some, if_neg c4,
    closest_step_some, if_neg c5]

lemma gfc_reg2 {θ : ℝ} (h1 : -1.5 < θ) (h2 : θ ≤ -0.5) :
    get_final_cefr θ = "A2" := by
  have c1 : |θ - (-1 : ℝ)| < |θ - (-2 : ℝ)| := by
    rw [dist_lt_dist_iff' (by norm_num : (-2 : ℝ) < -1) θ]
    linarith
  have c2 : ¬ (|θ - (0 : ℝ)| < |θ - (-1 : ℝ)|) := by
    rw [dist_lt_dist_iff' (by norm_num : (-1 : ℝ) < 0) θ]
    intro hc
    linarith
  have c3 : ¬ (|θ - (1 : ℝ)| < |θ - (-1 : ℝ)|) := by
    rw [dist_lt_dist_iff' (by norm_num : (-1 : ℝ) < 1) θ]
    intro hc
    linarith
  have c4 : ¬ (|θ - (2 : ℝ)| < |θ - (-1 : ℝ)|) := by
    rw [dist_lt_dist_iff' (by norm_num : (-1 : ℝ) < 2) θ]
    intro hc
    linarith
  have c5 : ¬ (|θ - (3 : ℝ)| < |θ - (-1 : ℝ)|) := by
    rw [dist_lt_dist_iff' (by norm_num : (-1 : ℝ) < 3) θ]
    intro hc
    linarith
  rw [get_final_cefr, cefr_levels]
  simp only [List.foldl]
  rw [closest_step_none, closest_step_some, if_pos c1, closest_step_some,
    if_neg c2, closest_step_some, if_neg c3, closest_step_some, if_neg c4,
    closest_step_some, if_neg c5]

lemma gfc_reg3 {θ : ℝ} (h1 : -0.5 < θ) (h2 : θ ≤ 0.5) :
    get_final_cefr θ = "B1" := by
  have c1 : |θ - (-1 : ℝ)| < |θ - (-2 : ℝ)| := by
    rw [dist_lt_dist_iff' (by norm_num : (-2 : ℝ) < -1) θ]
    linarith
  have c2 : |θ - (0 : ℝ)| < |θ - (-1 : ℝ)| := by
    rw [dist_lt_dist_iff' (by norm_num : (-1 : ℝ) < 0) θ]
    linarith
  have c3 : ¬ (|θ - (1 : ℝ)| < |θ - (0 : ℝ)|) := by
    rw [dist_lt_dist_iff' (by norm_num : (0 : ℝ) < 1) θ]
    intro hc
    linarith
  have c4 : ¬ (|θ - (2 : ℝ)| < |θ - (0 : ℝ)|) := by
    rw [dist_lt_dist_iff' (by norm_num : (0 : ℝ) < 2) θ]
    intro hc
    linarith
  have c5 : ¬ (|θ - (3 : ℝ)| < |θ - (0 : ℝ)|) := by
    rw [dist_lt_dist_iff' (by norm_num : (0 : ℝ) < 3) θ]
    intro hc
    linarith
  rw [get_final_cefr, cefr_levels]
  simp only [List.foldl]
  rw [closest_step_none, closest_step_some, if_pos c1, closest_step_some,
    if_pos c2, closest_step_some, if_neg c3, closest_step_some, if_neg c4,
    closest_step_some, if_neg c5]

lemma gfc_reg4 {θ : ℝ} (h1 : 0.5 < θ) (h2 : θ ≤ 1.5) :
    get_final_cefr θ = "B2" := by
  have c1 : |θ - (-1 : ℝ)| < |θ - (-2 : ℝ)| := by
    rw [dist_lt_dist_iff' (by norm_num : (-2 : ℝ) < -1) θ]
    linarith
  have c2 : |θ - (0 : ℝ)| < |θ - (-1 : ℝ)| := by
    rw [dist_lt_dist_iff' (by norm_num : (-1 : ℝ) < 0) θ]
    linarith
  have c3 : |θ - (1 : ℝ)| < |θ - (0 : ℝ)| := by
    rw [dist_lt_dist_iff' (by norm_num : (0 : ℝ) < 1) θ]
    linarith
  have c4 : ¬ (|θ - (2 : ℝ)| < |θ - (1 : ℝ)|) := by
    rw [dist_lt_dist_iff' (by norm_num : (1 : ℝ) < 2) θ]
    intro hc
    linarith
  have c5 : ¬ (|θ - (3 : ℝ)| < |θ - (1 : ℝ)|) := by
    rw [dist_lt_dist_iff' (by norm_num : (1 : ℝ) < 3) θ]
    intro hc
    linarith
  rw [get_final_cefr, cefr_levels]
  simp only [List.foldl]
  rw [closest_step_none, closest_step_some, if_pos c1, closest_step_some,
    if_pos c2, closest_step_some, if_pos c3, closest_step_some, if_neg c4,
    closest_step_some, if_neg c5]

lemma gfc_reg5 {θ : ℝ} (h1 : 1.5 < θ) (h2 : θ ≤ 2.5) :
    get_final_cefr θ = "C1" := by
  have c1 : |θ - (-1 : ℝ)| < |θ - (-2 : ℝ)| := by
    rw [dist_lt_dist_iff' (by norm_num : (-2 : ℝ) < -1) θ]
    linarith
  have c2 : |θ - (0 : ℝ)| < |θ - (-1 : ℝ)| := by
    rw [dist_lt_dist_iff' (by norm_num : (-1 : ℝ) < 0) θ]
    linarith
  have c3 : |θ - (1 : ℝ)| < |θ - (0 : ℝ)| := by
    rw [dist_lt_dist_iff' (by norm_num : (0 : ℝ) < 1) θ]
    linarith
  have c4 : |θ - (2 : ℝ)| < |θ - (1 : ℝ)| := by
    rw [dist_lt_dist_iff' (by norm_num : (1 : ℝ) < 2) θ]
    linarith
  have c5 : ¬ (|θ - (3 : ℝ)| < |θ - (2 : ℝ)|) := by
    rw [dist_lt_dist_iff' (by norm_num : (2 : ℝ) < 3) θ]
    intro hc
    linarith
  rw [get_final_cefr, cefr_levels]
  simp only [List.foldl]
  rw [closest_step_none, closest_step_some, if_pos c1, closest_step_some,
    if_pos c2, closest_step_some, if_pos c3, closest_step_some, if_pos c4,
    closest_step_some, if_neg c5]

lemma gfc_reg6 {θ : ℝ} (h1 : 2.5 < θ) : get_final_cefr θ = "C2" := by
  have c1 : |θ - (-1 : ℝ)| < |θ - (-2 : ℝ)| := by
    rw [dist_lt_dist_iff' (by norm_num : (-2 : ℝ) < -1) θ]
    linarith
  have c2 : |θ - (0 : ℝ)| < |θ - (-1 : ℝ)| := by
    rw [dist_lt_dist_iff' (by norm_num : (-1 : ℝ) < 0) θ]
    linarith
  have c3 : |θ - (1 : ℝ)| < |θ - (0 : ℝ)| := by
    rw [dist_lt_dist_iff' (by norm_num : (0 : ℝ) < 1) θ]
    linarith
  have c4 : |θ - (2 : ℝ)| < |θ - (1 : ℝ)| := by
    rw [dist_lt_dist_iff' (by norm_num : (1 : ℝ) < 2) θ]
    linarith
  have c5 : |θ - (3 : ℝ)| < |θ - (2 : ℝ)| := by
    rw [dist_lt_dist_iff' (by norm_num : (2 : ℝ) < 3) θ]
    linarith
  rw [get_final_cefr, cefr_levels]
  simp only [List.foldl]
  rw [closest_step_none, closest_step_some, if_pos c1, closest_step_some,
    if_pos c2, closest_step_some, if_pos c3, closest_step_some, if_pos c4,
    closest_step_some, if_pos c5]

/-- Claim C6: the final-CEFR conversion returns the level among
A1..C2 (θ-values -2..3) minimizing `|θ - θ_level|`, and at a tie the lower
of the two levels. -/
theorem get_final_cefr_spec (theta : ℝ) :
    ∃ p ∈ cefr_levels, get_final_cefr theta = p.1 ∧
      (∀ q ∈ cefr_levels, |theta - p.2| ≤ |theta - q.2|) ∧
      (∀ q ∈ cefr_levels, |theta - q.2| = |theta - p.2| → p.2 ≤ q.2) := by
  rcases le_or_lt theta (-1.5) with h1 | h1
  · refine ⟨("A1", -2), by simp [cefr_levels], gfc_reg1 h1, ?_, ?_⟩
    · intro q hq
      simp [cefr_levels] at hq
      rcases hq with rfl | rfl | rfl | rfl | rfl | rfl <;> dsimp only
      · exact le_refl _
      · exact (dist_le_dist_iff (by norm_num : (-2 : ℝ) < -1) theta).mpr
          (by linarith)
      · exact (dist_le_dist_iff (by norm_num : (-2 : ℝ) < 0) theta).mpr
          (by linarith)
      · exact (dist_le_dist_iff (by norm_num : (-2 : ℝ) < 1) theta).mpr
          (by linarith)
      · exact (dist_le_dist_iff (by norm_num : (-2 : ℝ) < 2) theta).mpr
          (by linarith)
      · exact (dist_le_dist_iff (by norm_num : (-2 : ℝ) < 3) theta).mpr
          (by linarith)
    · intro q hq heq
      simp [cefr_levels] at hq
      rcases hq with rfl | rfl | rfl | rfl | rfl | rfl <;> dsimp only <;>
        norm_num
  rcases le_or_lt theta (-0.5) with h2 | h2
  · refine ⟨("A2", -1), by simp [cefr_levels], gfc_reg2 h1 h2, ?_, ?_⟩
    · intro q hq
      simp [cefr_levels] at hq
      rcases hq with rfl | rfl | rfl | rfl | rfl | rfl <;> dsimp only
      · exact (dist_le_dist_iff' (by norm_num : (-2 : ℝ) < -1) theta).mpr
          (by linarith)
      · exact le_refl _
      · exact (dist_le_dist_iff (by norm_num : (-1 : ℝ) < 0) theta).mpr
          (by linarith)
      · exact (dist_le_dist_iff (by norm_num : (-1 : ℝ) < 1) theta).mpr
          (by linarith)
      · exact (dist_le_dist_iff (by norm_num : (-1 : ℝ) < 2) theta).mpr
          (by linarith)
      · exact (dist_le_dist_iff (by norm_num : (-1 : ℝ) < 3) theta).mpr
          (by linarith)
    · intro q hq heq
      simp [cefr_levels] at hq
      rcases hq with rfl | rfl | rfl | rfl | rfl | rfl <;> dsimp only at heq ⊢ <;>
        [skip; norm_num; norm_num; norm_num; norm_num; norm_num]
      have := (dist_eq_dist_iff (by norm_num : (-2 : ℝ) < -1) theta).mp heq
      linarith
  rcases le_or_lt theta 0.5 with h3 | h3
  · refine ⟨("B1", 0), by simp [cefr_levels], gfc_reg3 h2 h3, ?_, ?_⟩
    · intro q hq
      simp [cefr_levels] at hq
      rcases hq with rfl | rfl | rfl | rfl | rfl | rfl <;> dsimp only
      · exact (dist_le_dist_iff' (by norm_num : (-2 : ℝ) < 0) theta).mpr
          (by linarith)
      · exact (dist_le_dist_iff' (by norm_num : (-1 : ℝ) < 0) theta).mpr
          (by linarith)
      · exact le_refl _
      · exact (dist_le_dist_iff (by norm_num : (0 : ℝ) < 1) theta).mpr
          (by linarith)
      · exact (dist_le_dist_iff (by norm_num : (0 : ℝ) < 2) theta).mpr
          (by linarith)
      · exact (dist_le_dist_iff (by norm_num : (0 : ℝ) < 3) theta).mpr
          (by linarith)
    · intro q hq heq
      simp [cefr_levels] at hq
      rcases hq with rfl | rfl | rfl | rfl | rfl | rfl <;> dsimp only at heq ⊢
      · have := (dist_eq_dist_iff (by norm_num : (-2 : ℝ) < 0) theta).mp heq
        linarith
      · have := (dist_eq_dist_iff (by norm_num : (-1 : ℝ) < 0) theta).mp heq
        linarith
      · norm_num
      · norm_num
      · norm_num
      · norm_num
  rcases le_or_lt theta 1.5 with h4 | h4
  · refine ⟨("B2", 1), by simp [cefr_levels], gfc_reg4 h3 h4, ?_, ?_⟩
    · intro q hq
      simp [cefr_levels] at hq
      rcases hq with rfl | rfl | rfl | rfl | rfl | rfl <;> dsimp only
      · exact (dist_le_dist_iff' (by norm_num : (-2 : ℝ) < 1) theta).mpr
          (by linarith)
      · exact (dist_le_dist_iff' (by norm_num : (-1 : ℝ) < 1) theta).mpr
          (by linarith)
      · exact (dist_le_dist_iff' (by norm_num : (0 : ℝ) < 1) theta).mpr
          (by linarith)
      · exact le_refl _
      · exact (dist_le_dist_iff (by norm_num : (1 : ℝ) < 2) theta).mpr
          (by linarith)
      · exact (dist_le_dist_iff (by norm_num : (1 : ℝ) < 3) theta).mpr
          (by linarith)
    · intro q hq heq
      simp [cefr_levels] at hq
      rcases hq with rfl | rfl | rfl | rfl | rfl | rfl <;> dsimp only at heq ⊢
      · have := (dist_eq_dist_iff (by norm_num : (-2 : ℝ) < 1) theta).mp heq
        linarith
      · have := (dist_eq_dist_iff (by norm_num : (-1 : ℝ) < 1) theta).mp heq
        linarith
      · have := (dist_eq_dist_iff (by norm_num : (0 : ℝ) < 1) theta).mp heq
        linarith
      · norm_num
      · norm_num
      · norm_num
  rcases le_or_lt theta 2.5 with h5 | h5
  · refine ⟨("C1", 2), by simp [cefr_levels], gfc_reg5 h4 h5, ?_, ?_⟩
    · intro q hq
      simp [cefr_levels] at hq
      rcases hq with rfl | rfl | rfl | rfl | rfl | rfl <;> dsimp only
      · exact (dist_le_dist_iff' (by norm_num : (-2 : ℝ) < 2) theta).mpr
          (by linarith)
      · exact (dist_le_dist_iff' (by norm_num : (-1 : ℝ) < 2) theta).mpr
          (by linarith)
      · exact (dist_le_dist_iff' (by norm_num : (0 : ℝ) < 2) theta).mpr
          (by linarith)
      · exact (dist_le_dist_iff' (by norm_num : (1 : ℝ) < 2) theta).mpr
          (by linarith)
      · exact le_refl _
      · exact (dist_le_dist_iff (by norm_num : (2 : ℝ) < 3) theta).mpr
          (by linarith)
    · intro q hq heq
      simp [cefr_levels] at hq
      rcases hq with rfl | rfl | rfl | rfl | rfl | rfl <;> dsimp only at heq ⊢
      · have := (dist_eq_dist_iff (by norm_num : (-2 : ℝ) < 2) theta).mp heq
        linarith
      · have := (dist_eq_dist_iff (by norm_num : (-1 : ℝ) < 2) theta).mp heq
        linarith
      · have := (dist_eq_dist_iff (by norm_num : (0 : ℝ) < 2) theta).mp heq
        linarith
      · have := (dist_eq_dist_iff (by norm_num : (1 : ℝ) < 2) theta).mp heq
        linarith
      · norm_num
      · norm_num
  · refine ⟨("C2", 3), by simp [cefr_levels], gfc_reg6 h5, ?_, ?_⟩
    · intro q hq
      simp [cefr_levels] at hq
      rcases hq with rfl | rfl | rfl | rfl | rfl | rfl <;> dsimp only
      · exact (dist_le_dist_iff' (by norm_num : (-2 : ℝ) < 3) theta).mpr
          (by linarith)
      · exact (dist_le_dist_iff' (by norm_num : (-1 : ℝ) < 3) theta).mpr
          (by linarith)
      · exact (dist_le_dist_iff' (by norm_num : (0 : ℝ) < 3) theta).mpr
          (by linarith)
      · exact (dist_le_dist_iff' (by norm_num : (1 : ℝ) < 3) theta).mpr
          (by linarith)
      · exact (dist_le_dist_iff' (by norm_num : (2 : ℝ) < 3) theta).mpr
          (by linarith)
      · exact le_refl _
    · intro q hq heq
      simp [cefr_levels] at hq
      rcases hq with rfl | rfl | rfl | rfl | rfl | rfl <;> dsimp only at heq ⊢
      · have := (dist_eq_dist_iff (by norm_num : (-2 : ℝ) < 3) theta).mp heq
        linarith
      · have := (dist_eq_dist_iff (by norm_num : (-1 : ℝ) < 3) theta).mp heq
        linarith
      · have := (dist_eq_dist_iff (by norm_num : (0 : ℝ) < 3) theta).mp heq
        linarith
      · have := (dist_eq_dist_iff (by norm_num : (1 : ℝ) < 3) theta).mp heq
        linarith
      · have := (dist_eq_dist_iff (by norm_num : (2 : ℝ) < 3) theta).mp heq
        linarith
      · norm_num

/-- Witness for claim C6 at a concrete input. -/
theorem get_final_cefr_spec_witness :
    ∃ p ∈ cefr_levels, get_final_cefr 0 = p.1 ∧
      (∀ q ∈ cefr_levels, |(0 : ℝ) - p.2| ≤ |(0 : ℝ) - q.2|) ∧
      (∀ q ∈ cefr_levels, |(0 : ℝ) - q.2| = |(0 : ℝ) - p.2| → p.2 ≤ q.2) :=
  get_final_cefr_spec 0

end PlacementCAT
